import Mathlib

/-!
Verification of the task-attempt route layer of vibe-kanban
(`backend/src/routes/task_attempts.rs`).

The route handlers are shallowly embedded as pure Lean functions.  Results of
external calls (database queries, the process supervisor, git operations and
executor adapters) are supplied through explicit environment records, so every
branch of the Rust source is preserved.  Database writes performed by a handler
are returned as an explicit list of effects.
-/

namespace VibeKanban

/-- Model of `uuid::Uuid`: an abstract identifier with decidable equality. -/
structure Uuid where
  val : Nat
deriving DecidableEq

/-- Display form of a `Uuid`, standing in for Rust's `Display` impl. -/
def uuidStr (u : Uuid) : String := toString u.val

/-- Embeds `ExecutionProcessType` from `models::execution_process`. -/
inductive ExecutionProcessType where
  | setupScript
  | codingAgent
  | devServer
deriving DecidableEq

/-- Embeds `ExecutionProcessStatus` from `models::execution_process`. -/
inductive ExecutionProcessStatus where
  | running
  | completed
  | failed
  | killed
deriving DecidableEq

/-- Embeds `TaskStatus` from `models::task`; the surfaced routes only write `Done`. -/
inductive TaskStatus where
  | todo
  | inProgress
  | done
deriving DecidableEq

/-- Embeds `ActionType` from the executor module: a tagged variant, of which only
`PlanPresentation { plan }` is inspected by the surfaced routes; every other
variant is collapsed into `other`. -/
inductive ActionType where
  | planPresentation (plan : String)
  | other (tag : String)
deriving DecidableEq

/-- Embeds `NormalizedEntryType` from the executor module.  `ToolUse` carries further
fields in the source which the routes never read (they match with `..`). -/
inductive NormalizedEntryType where
  | userMessage
  | assistantMessage
  | systemMessage
  | errorMessage
  | toolUse (action_type : ActionType)
deriving DecidableEq

/-- Embeds `NormalizedEntry`: `timestamp` is an RFC3339 string option. -/
structure NormalizedEntry where
  timestamp : Option String
  entry_type : NormalizedEntryType
  content : String
  metadata : Option String
deriving DecidableEq

/-- Embeds `NormalizedConversation` from the executor module. -/
structure NormalizedConversation where
  entries : List NormalizedEntry
  session_id : Option String
  executor_type : String
  prompt : Option String
  summary : Option String
deriving DecidableEq

/-- Embeds `ExecutorSession` row: only `prompt` and `summary` are read here. -/
structure ExecutorSession where
  prompt : Option String
  summary : Option String
deriving DecidableEq

/-- Embeds `ExecutorConfig`: the variants the surfaced routes construct explicitly,
plus an opaque constructor for every other parseable executor kind. -/
inductive ExecutorConfig where
  | setupScript (script : String)
  | claudePlan
  | otherExecutor (name : String)
deriving DecidableEq

/-- Embeds `ExecutionProcess` row, restricted to the columns the routes read. -/
structure ExecutionProcess where
  id : Uuid
  task_attempt_id : Uuid
  process_type : ExecutionProcessType
  executor_type : Option String
  command : String
  working_directory : String
  status : ExecutionProcessStatus
  stdout : Option String
  stderr : Option String
deriving DecidableEq

/-- Embeds `TaskAttempt` row, restricted to the columns the routes read. -/
structure TaskAttempt where
  id : Uuid
  task_id : Uuid
  base_branch : String
  worktree_path : String
deriving DecidableEq

/-- Embeds `Task` row, restricted to the columns the routes read. -/
structure Task where
  id : Uuid
  project_id : Uuid
  title : String
  status : TaskStatus
deriving DecidableEq

/-- Embeds `CreateTask` payload used by `approve_plan`. -/
structure CreateTask where
  project_id : Uuid
  title : String
  description : Option String
  parent_task_attempt : Option Uuid
deriving DecidableEq

/-- The `ApiResponse { success, data, message }` envelope. -/
structure ApiResponse (α : Type) where
  success : Bool
  data : Option α
  message : Option String
deriving DecidableEq

/-- The two `axum::http::StatusCode` error values the handlers return. -/
inductive StatusCode where
  | notFound
  | internalServerError
deriving DecidableEq

/-- Embeds `FollowUpResponse` from the routes module. -/
structure FollowUpResponse where
  message : String
  actual_attempt_id : Uuid
  created_new_attempt : Bool
deriving DecidableEq

/-- Database writes a handler performs, recorded when the corresponding call
succeeds. -/
inductive Effect where
  | updateCompletion (id : Uuid) (status : ExecutionProcessStatus)
  | createTask (data : CreateTask)
  | updateTaskStatus (task_id : Uuid) (project_id : Uuid) (status : TaskStatus)
deriving DecidableEq

/-! ### Models of the Rust `str` operations used by the routes

Rust's `str::trim`, `str::split` (on a substring) and `str::replace` are
modelled by structurally recursive functions over the character list of a
`String`, so that concrete runs reduce inside the kernel.  `trim` is modelled
over the ASCII whitespace characters (the inputs manipulated by the routes are
ASCII). -/

/-- ASCII whitespace, modelling the characters `str::trim` removes. -/
def isWsChar (c : Char) : Bool :=
  c == ' ' || c == '\t' || c == '\n' || c == '\r'

/-- Model of Rust `str::trim`. -/
def rustTrim (s : String) : String :=
  ⟨((s.data.dropWhile isWsChar).reverse.dropWhile isWsChar).reverse⟩

/-- Does `sep` occur at the head of `l`? -/
def headMatches : List Char → List Char → Bool
  | [], _ => true
  | _ :: _, [] => false
  | a :: as, b :: bs => a == b && headMatches as bs

/-- Fuelled worker for `rustSplitOn`: scans `l` left to right, cutting at each
occurrence of the (nonempty) separator `sep`.  `fuel ≥ l.length` guarantees
the fuel never runs out before `l` does. -/
def splitOnFuel (sep : List Char) : Nat → List Char → List Char → List (List Char)
  | _, [], acc => [acc.reverse]
  | 0, l, acc => [acc.reverse ++ l]
  | fuel + 1, c :: rest, acc =>
    if sep ≠ [] && headMatches sep (c :: rest) then
      acc.reverse :: splitOnFuel sep fuel (List.drop (sep.length - 1) rest) []
    else
      splitOnFuel sep fuel rest (c :: acc)

/-- Model of Rust `str::split` with a nonempty literal separator, collected
into a list. -/
def rustSplitOn (sep s : String) : List String :=
  (splitOnFuel sep.data s.data.length s.data []).map String.mk

/-- Model of Rust `str::replace`: split on `sep` and rejoin with `repl`. -/
def rustReplace (s sep repl : String) : String :=
  ⟨List.intercalate repl.data (splitOnFuel sep.data s.data.length s.data [])⟩

/-- Embeds `s.trim().is_empty()` as used throughout the routes. -/
def trimIsEmpty (s : String) : Bool := (rustTrim s).data.isEmpty

/-! ### `normalize_process_logs` -/

/-- The literal stderr framing marker. -/
def boundary : String := "---STDERR_CHUNK_BOUNDARY---"

/-- Model of comparing two characters as Rust compares them inside
`String::cmp` (by code point; UTF-8 byte order coincides with code-point
order). -/
def charCmp (a b : Char) : Ordering :=
  if a.toNat < b.toNat then .lt else if a.toNat = b.toNat then .eq else .gt

/-- Lexicographic comparison of character lists. -/
def strCmpChars : List Char → List Char → Ordering
  | [], [] => .eq
  | [], _ :: _ => .lt
  | _ :: _, [] => .gt
  | a :: as, b :: bs =>
    match charCmp a b with
    | .eq => strCmpChars as bs
    | ord => ord

/-- Model of Rust `Ord::cmp` on `String`: lexicographic order. -/
def strCmp (x y : String) : Ordering := strCmpChars x.data y.data

/-- Rust `Option::cmp`-style comparator on timestamps, exactly the closure
passed to `all_entries.sort_by` in `normalize_process_logs`: `Some` compares
by string order, `Some` sorts before `None`. -/
def entryCmp (a b : NormalizedEntry) : Ordering :=
  match a.timestamp, b.timestamp with
  | some x, some y => strCmp x y
  | some _, none => .lt
  | none, some _ => .gt
  | none, none => .eq

/-- The non-strict string order induced by the comparator. -/
def strLe (x y : String) : Prop := strCmp x y ≠ Ordering.gt

/-- The `le` relation induced by `entryCmp`, used to run the stable sort. -/
def entryLe (a b : NormalizedEntry) : Bool :=
  match entryCmp a b with
  | .gt => false
  | _ => true

/-- Embeds `process.stdout.as_ref().map(|s| !s.trim().is_empty()).unwrap_or(false)`. -/
def hasContent : Option String → Bool
  | some s => !trimIsEmpty s
  | none => false

/-- The conversation returned on the empty and unparseable-executor paths. -/
def emptyConversation (executorType : String) (session : Option ExecutorSession) :
    NormalizedConversation :=
  { entries := []
    session_id := none
    executor_type := executorType
    prompt := session.bind (·.prompt)
    summary := session.bind (·.summary) }

/-- Environment of `normalize_process_logs`: the executor session row, the
`FromStr` parse of the executor type, filesystem canonicalization, the
executor adapter's `normalize_logs` (`none` models an `Err` result), and the
`chrono::Utc::now().to_rfc3339()` value observed during the call. -/
structure NormEnv where
  session : Option ExecutorSession
  parseConfig : String → Option ExecutorConfig
  canonicalize : String → Option String
  normalizeLogs : ExecutorConfig → String → String → Option (List NormalizedEntry)
  now : String

/-- The stderr half of `normalize_process_logs`: split the trimmed stderr on
the chunk boundary and emit one `ErrorMessage` entry per non-empty chunk,
timestamped with `now`. -/
def stderrEntries (now : String) : Option String → List NormalizedEntry
  | none => []
  | some stderr =>
    let trimmed := rustTrim stderr
    if trimmed.data.isEmpty then []
    else
      (rustSplitOn boundary trimmed).filterMap fun chunk =>
        let chunkTrimmed := rustTrim chunk
        if chunkTrimmed.data.isEmpty then none
        else
          let filtered := rustReplace chunkTrimmed boundary ""
          if trimIsEmpty filtered then none
          else some { timestamp := some now
                      entry_type := .errorMessage
                      content := rustTrim filtered
                      metadata := none }

/-- Resolution of the `ExecutorConfig` inside `normalize_process_logs`:
a `SetupScript` process uses the session prompt as its script, every other
process parses `executor_type`; an unparseable type takes the early `return`
path, modelled as `.error` carrying the returned conversation. -/
def configResultOf (env : NormEnv) (process : ExecutionProcess) :
    Except NormalizedConversation ExecutorConfig :=
  if process.process_type = .setupScript then
    .ok (.setupScript ((env.session.bind (·.prompt)).getD "setup script"))
  else
    match env.parseConfig (process.executor_type.getD "unknown") with
    | some config => .ok config
    | none => .error (emptyConversation (process.executor_type.getD "unknown") env.session)

/-- The stdout half of `normalize_process_logs`.  An `.error conv` result
models the early `return` taken when the executor type fails to parse. -/
def stdoutEntriesStep (env : NormEnv) (process : ExecutionProcess) :
    Except NormalizedConversation (List NormalizedEntry) :=
  match process.stdout with
  | none => .ok []
  | some stdout =>
    if trimIsEmpty stdout then .ok []
    else
      match configResultOf env process with
      | .error conv => .error conv
      | .ok config =>
        let workingDirPath :=
          (env.canonicalize process.working_directory).getD process.working_directory
        match env.normalizeLogs config stdout workingDirPath with
        | some normalized => .ok normalized
        | none => .ok []

/-- Embeds `normalize_process_logs` from `routes/task_attempts.rs`. -/
def normalize_process_logs (env : NormEnv) (process : ExecutionProcess) :
    NormalizedConversation :=
  let hasStdout := hasContent process.stdout
  let hasStderr := hasContent process.stderr
  if !hasStdout && !hasStderr then
    emptyConversation (process.executor_type.getD "unknown") env.session
  else
    match stdoutEntriesStep env process with
    | .error conv => conv
    | .ok stdoutEs =>
      let stderrEs := stderrEntries env.now process.stderr
      let allEntries := (stdoutEs ++ stderrEs).mergeSort entryLe
      let executorType :=
        if process.process_type = .setupScript then "setup-script"
        else process.executor_type.getD "unknown"
      { entries := allEntries
        session_id := none
        executor_type := executorType
        prompt := env.session.bind (·.prompt)
        summary := env.session.bind (·.summary) }

/-- Does the stderr column contribute no entries at all?  True exactly when
every chunk of the split is whitespace or boundary markers only. -/
def stderrTrivial : Option String → Bool
  | none => true
  | some stderr =>
    let trimmed := rustTrim stderr
    trimmed.data.isEmpty ||
      (rustSplitOn boundary trimmed).all fun chunk =>
        (rustTrim chunk).data.isEmpty ||
          trimIsEmpty (rustReplace (rustTrim chunk) boundary "")

/-! ### Concrete instances used to evaluate the embedding -/

/-- A fixed RFC3339 timestamp standing for the observed clock value. -/
def timeT : String := "2025-01-01T00:00:00Z"

/-- Environment whose coding-agent adapter emits a single entry carrying no
timestamp. -/
def c1Env : NormEnv :=
  { session := none
    parseConfig := fun _ => some (.otherExecutor "unknown")
    canonicalize := fun _ => none
    normalizeLogs := fun _ _ _ => some [⟨none, .assistantMessage, "hello", none⟩]
    now := timeT }

/-- A completed coding-agent process with one stdout line and one stderr
chunk. -/
def c1Process : ExecutionProcess :=
  { id := ⟨1⟩
    task_attempt_id := ⟨1⟩
    process_type := .codingAgent
    executor_type := some "unknown"
    command := "agent"
    working_directory := "/w"
    status := .completed
    stdout := some "line"
    stderr := some "oops" }

/-- Two distinct entries whose timestamps compare equal. -/
def wEntryA : NormalizedEntry := ⟨some timeT, .assistantMessage, "x", none⟩

/-- Second entry of the equal-timestamp pair. -/
def wEntryB : NormalizedEntry := ⟨some timeT, .userMessage, "y", none⟩

/-- Environment with an unparseable executor and a first clock value. -/
def c2EnvA : NormEnv :=
  { session := none
    parseConfig := fun _ => none
    canonicalize := fun _ => none
    normalizeLogs := fun _ _ _ => none
    now := "2025-01-01T00:00:00Z" }

/-- The same environment observed one second later. -/
def c2EnvB : NormEnv := { c2EnvA with now := "2025-01-01T00:00:01Z" }

/-- A process with no stdout and one stderr chunk. -/
def c2Process : ExecutionProcess :=
  { id := ⟨2⟩
    task_attempt_id := ⟨1⟩
    process_type := .codingAgent
    executor_type := some "unknown"
    command := "agent"
    working_directory := "/w"
    status := .failed
    stdout := none
    stderr := some "boom" }

/-- A process with stdout but a trivial stderr column. -/
def c2wProcess : ExecutionProcess :=
  { c2Process with id := ⟨3⟩, stdout := some "line", stderr := none }

/-! ### Route handlers

Each handler is a pure function of an environment record holding the results
of its external calls, in the order the Rust code makes them.  A result of
`Except.error e` models a Rust `Err(e)` whose display string is `e`.  Handlers
that write to the database also return the list of successful writes. -/

/-- External calls made by `get_execution_process`: the process row, the
attempt row keyed by `process.task_attempt_id`, and the task row keyed by
`attempt.task_id`. -/
structure GetExecutionProcessEnv where
  findProcess : Except String (Option ExecutionProcess)
  findAttempt : Except String (Option TaskAttempt)
  findTask : Except String (Option Task)

/-- Embeds `get_execution_process` from `routes/task_attempts.rs`. -/
def get_execution_process (env : GetExecutionProcessEnv) (project_id : Uuid) :
    Except StatusCode (ApiResponse ExecutionProcess) :=
  match env.findProcess with
  | .ok (some process) =>
    match env.findAttempt with
    | .ok (some _attempt) =>
      match env.findTask with
      | .ok (some task) =>
        if task.project_id = project_id then
          .ok ⟨true, some process, none⟩
        else
          .error .notFound
      | .ok none => .error .notFound
      | .error _ => .error .internalServerError
    | .ok none => .error .notFound
    | .error _ => .error .internalServerError
  | .ok none => .error .notFound
  | .error _ => .error .internalServerError

/-- Embeds `get_task_attempt_details`: the route takes only an attempt id and makes a
single `TaskAttempt::find_by_id` call. -/
def get_task_attempt_details (findAttempt : Except String (Option TaskAttempt)) :
    Except StatusCode (ApiResponse TaskAttempt) :=
  match findAttempt with
  | .ok (some attempt) => .ok ⟨true, some attempt, none⟩
  | .ok none => .error .notFound
  | .error _ => .error .internalServerError

/-- A database snapshot backing `find_by_id` lookups. -/
structure Db where
  tasks : List Task
  attempts : List TaskAttempt

/-- Embeds `TaskAttempt::find_by_id` over a `Db` snapshot. -/
def dbFindAttempt (db : Db) (id : Uuid) : Option TaskAttempt :=
  db.attempts.find? fun a => decide (a.id = id)

/-- Embeds `Task::find_by_id` over a `Db` snapshot. -/
def dbFindTask (db : Db) (id : Uuid) : Option Task :=
  db.tasks.find? fun t => decide (t.id = id)

/-- Embeds `get_task_attempt_details` run against a `Db` snapshot. -/
def get_task_attempt_details_db (db : Db) (attempt_id : Uuid) :
    Except StatusCode (ApiResponse TaskAttempt) :=
  get_task_attempt_details (.ok (dbFindAttempt db attempt_id))

/-- External calls made by `stop_all_execution_processes`. -/
structure StopAllEnv where
  exists_for_task : Except String Bool
  findProcesses : Except String (List ExecutionProcess)
  stopResult : Uuid → Except String Bool
  updateResult : Uuid → Except String Unit

/-- Accumulator of the stop loop: the stopped count, the collected error
messages, and the successful status writes. -/
structure StopOutcome where
  stoppedCount : Nat
  errors : List String
  effects : List Effect
deriving DecidableEq

/-- One iteration of the stop loop of `stop_all_execution_processes`. -/
def stopStep (env : StopAllEnv) (acc : StopOutcome) (process : ExecutionProcess) :
    StopOutcome :=
  match env.stopResult process.id with
  | .ok true =>
    match env.updateResult process.id with
    | .error _ =>
      { acc with
        stoppedCount := acc.stoppedCount + 1
        errors := acc.errors ++
          ["Failed to update process " ++ uuidStr process.id ++ " status"] }
    | .ok _ =>
      { acc with
        stoppedCount := acc.stoppedCount + 1
        effects := acc.effects ++ [.updateCompletion process.id .killed] }
  | .ok false => acc
  | .error e =>
    { acc with
      errors := acc.errors ++
        ["Failed to stop process " ++ uuidStr process.id ++ ": " ++ e] }

/-- The whole stop loop of `stop_all_execution_processes`. -/
def stopLoop (env : StopAllEnv) (processes : List ExecutionProcess) : StopOutcome :=
  processes.foldl (stopStep env) ⟨0, [], []⟩

/-- Embeds `stop_all_execution_processes` from `routes/task_attempts.rs`. -/
def stop_all_execution_processes (env : StopAllEnv) :
    Except StatusCode (ApiResponse Unit) × List Effect :=
  match env.exists_for_task with
  | .ok false => (.error .notFound, [])
  | .error _ => (.error .internalServerError, [])
  | .ok true =>
    match env.findProcesses with
    | .error _ => (.error .internalServerError, [])
    | .ok processes =>
      let outcome := stopLoop env processes
      if outcome.errors.isEmpty then
        if outcome.stoppedCount = 0 then
          (.ok ⟨true, none, some "No running processes found to stop"⟩, outcome.effects)
        else
          (.ok ⟨true, none,
            some ("Successfully stopped " ++ toString outcome.stoppedCount ++
              " execution processes")⟩, outcome.effects)
      else
        (.ok ⟨false, none,
          some ("Stopped " ++ toString outcome.stoppedCount ++
            " processes, but encountered errors: " ++
            String.intercalate ", " outcome.errors)⟩, outcome.effects)

/-- External calls made by `start_dev_server`. -/
structure DevServerEnv where
  exists_for_task : Except String Bool
  findRunningDevServers : Except String (List ExecutionProcess)
  stopResult : Uuid → Except String Bool
  updateResult : Uuid → Except String Unit
  startResult : Except String Unit

/-- The preemption loop of `start_dev_server`: a failed stop is only logged;
after a stop call that returns (either boolean), the status write to `Killed`
is attempted and recorded when it succeeds. -/
def devServerStopEffects (env : DevServerEnv) (servers : List ExecutionProcess) :
    List Effect :=
  servers.foldl
    (fun acc s =>
      match env.stopResult s.id with
      | .error _ => acc
      | .ok _ =>
        match env.updateResult s.id with
        | .error _ => acc
        | .ok _ => acc ++ [.updateCompletion s.id .killed])
    []

/-- Embeds `start_dev_server` from `routes/task_attempts.rs`. -/
def start_dev_server (env : DevServerEnv) :
    Except StatusCode (ApiResponse Unit) × List Effect :=
  match env.exists_for_task with
  | .ok false => (.error .notFound, [])
  | .error _ => (.error .internalServerError, [])
  | .ok true =>
    match env.findRunningDevServers with
    | .error _ => (.error .internalServerError, [])
    | .ok servers =>
      let effects := devServerStopEffects env servers
      match env.startResult with
      | .ok _ => (.ok ⟨true, none, some "Dev server started successfully"⟩, effects)
      | .error e => (.ok ⟨false, none, some e⟩, effects)

/-- The status a process row holds after a list of effects is applied to the
database, starting from the row's stored status. -/
def statusAfter (effects : List Effect) (p : ExecutionProcess) : ExecutionProcessStatus :=
  effects.foldl
    (fun st e =>
      match e with
      | .updateCompletion id s => if id = p.id then s else st
      | _ => st)
    p.status

/-- External data consumed by `find_plan_content_with_context`: filesystem
canonicalization and the ClaudePlan adapter's `normalize_logs` (`none` models
`Err`). -/
structure PlanEnv where
  canonicalize : String → Option String
  normalizeClaudePlan : String → String → Option (List NormalizedEntry)

/-- The pattern match inside `find_plan_content_with_context` that extracts a
`PlanPresentation` plan from an entry. -/
def planOfEntry (e : NormalizedEntry) : Option String :=
  match e.entry_type with
  | .toolUse (.planPresentation plan) => some plan
  | _ => none

/-- The body of the per-process loop of `find_plan_content_with_context`:
skip processes with blank stdout, normalize with the ClaudePlan adapter, and
take the most recent `PlanPresentation` entry; a normalization error skips
the process. -/
def planFromProcess (env : PlanEnv) (p : ExecutionProcess) : Option String :=
  match p.stdout with
  | none => none
  | some stdout =>
    if trimIsEmpty stdout then none
    else
      let workingDirPath := (env.canonicalize p.working_directory).getD p.working_directory
      match env.normalizeClaudePlan stdout workingDirPath with
      | some entries => entries.reverse.findSome? planOfEntry
      | none => none

/-- Embeds `find_plan_content_with_context` from `routes/task_attempts.rs`: scan the
attempt's processes most recent first, keeping only `claude-plan` executors. -/
def find_plan_content_with_context (env : PlanEnv)
    (findProcesses : Except String (List ExecutionProcess)) : Except StatusCode String :=
  match findProcesses with
  | .error _ => .error .internalServerError
  | .ok processes =>
    match ((processes.reverse.filter
        fun p => decide (p.executor_type = some "claude-plan")).findSome?
          (planFromProcess env)) with
    | some plan => .ok plan
    | none => .error .notFound

/-- External calls made by `approve_plan`. -/
structure ApprovePlanEnv where
  exists_for_task : Except String Bool
  findTask : Except String (Option Task)
  findProcesses : Except String (List ExecutionProcess)
  plan : PlanEnv
  newTaskId : Uuid
  createTask : Except String Task
  updateStatus : Except String Unit

/-- Embeds `approve_plan` from `routes/task_attempts.rs`. -/
def approve_plan (env : ApprovePlanEnv) (project_id task_id attempt_id : Uuid) :
    Except StatusCode (ApiResponse FollowUpResponse) × List Effect :=
  match env.exists_for_task with
  | .ok false => (.error .notFound, [])
  | .error _ => (.error .internalServerError, [])
  | .ok true =>
    match env.findTask with
    | .ok none => (.error .notFound, [])
    | .error _ => (.error .internalServerError, [])
    | .ok (some currentTask) =>
      match find_plan_content_with_context env.plan env.findProcesses with
      | .error code => (.error code, [])
      | .ok planContent =>
        let createTaskData : CreateTask :=
          { project_id := project_id
            title := "Execute Plan: " ++ currentTask.title
            description := some planContent
            parent_task_attempt := some attempt_id }
        match env.createTask with
        | .error _ => (.error .internalServerError, [])
        | .ok newTask =>
          match env.updateStatus with
          | .error _ => (.error .internalServerError, [.createTask createTaskData])
          | .ok _ =>
            (.ok ⟨true,
              some ⟨"Plan approved and new task created: " ++ newTask.title,
                env.newTaskId, true⟩,
              some "Plan approved and new task created"⟩,
             [.createTask createTaskData, .updateTaskStatus task_id project_id .done])

/-- External calls made by `create_followup_attempt`. -/
structure FollowUpEnv where
  exists_for_task : Except String Bool
  startFollowup : Except String Uuid

/-- The success message of `create_followup_attempt`, chosen by whether a new
attempt had to be created. -/
def followupMessage (actualAttemptId attempt_id : Uuid) : String :=
  if decide (actualAttemptId ≠ attempt_id) then
    "Follow-up execution started on new attempt " ++ uuidStr actualAttemptId ++
      " (original worktree was deleted)"
  else
    "Follow-up execution started successfully"

/-- Embeds `create_followup_attempt` from `routes/task_attempts.rs`. -/
def create_followup_attempt (env : FollowUpEnv) (attempt_id : Uuid) :
    Except StatusCode (ApiResponse FollowUpResponse) :=
  match env.exists_for_task with
  | .ok false => .error .notFound
  | .error _ => .error .internalServerError
  | .ok true =>
    match env.startFollowup with
    | .ok actualAttemptId =>
      .ok ⟨true,
        some ⟨followupMessage actualAttemptId attempt_id, actualAttemptId,
          decide (actualAttemptId ≠ attempt_id)⟩,
        some (followupMessage actualAttemptId attempt_id)⟩
    | .error _ => .error .internalServerError

/-- Modelled from the spec: `TaskAttempt::start_followup_execution` is not
among the surfaced sources.  Per the spec it runs the follow-up inside the
original attempt's worktree when that worktree is usable or restorable, and
forks a fresh attempt — returning the fresh attempt's id — exactly when the
worktree is irrecoverable. -/
def start_followup_execution_spec (irrecoverable : Bool) (attempt_id freshId : Uuid) :
    Uuid :=
  if irrecoverable then freshId else attempt_id

/-- External calls made by `merge_task_attempt`. -/
structure MergeEnv where
  exists_for_task : Except String Bool
  mergeChanges : Except String Unit
  updateStatus : Except String Unit

/-- Embeds `merge_task_attempt` from `routes/task_attempts.rs` (the analytics event
is not modelled). -/
def merge_task_attempt (env : MergeEnv) (task_id project_id : Uuid) :
    Except StatusCode (ApiResponse Unit) × List Effect :=
  match env.exists_for_task with
  | .ok false => (.error .notFound, [])
  | .error _ => (.error .internalServerError, [])
  | .ok true =>
    match env.mergeChanges with
    | .ok _ =>
      match env.updateStatus with
      | .error _ => (.error .internalServerError, [])
      | .ok _ =>
        (.ok ⟨true, none, some "Changes merged successfully"⟩,
         [.updateTaskStatus task_id project_id .done])
    | .error e => (.ok ⟨false, none, some ("Failed to merge: " ++ e)⟩, [])

/-- External calls made by `rebase_task_attempt`. -/
structure RebaseEnv where
  exists_for_task : Except String Bool
  rebaseAttempt : Except String Unit

/-- Embeds `rebase_task_attempt` from `routes/task_attempts.rs`. -/
def rebase_task_attempt (env : RebaseEnv) :
    Except StatusCode (ApiResponse Unit) :=
  match env.exists_for_task with
  | .ok false => .error .notFound
  | .error _ => .error .internalServerError
  | .ok true =>
    match env.rebaseAttempt with
    | .ok _ => .ok ⟨true, none, some "Branch rebased successfully"⟩
    | .error e => .ok ⟨false, none, some e⟩

/-! ### Concrete route-handler instances -/

/-- An attempt whose `task_id` points at no existing task row. -/
def c3Attempt : TaskAttempt := ⟨⟨1⟩, ⟨42⟩, "main", "/w"⟩

/-- Snapshot holding the dangling attempt and no tasks at all. -/
def c3Db : Db := { tasks := [], attempts := [c3Attempt] }

/-- A task owned by project 7. -/
def c3Task : Task := ⟨⟨42⟩, ⟨7⟩, "a task", .todo⟩

/-- A process row used in the ownership check. -/
def c3Process : ExecutionProcess := { c2Process with id := ⟨40⟩ }

/-- Environment for `get_execution_process` where every row exists. -/
def c3Env : GetExecutionProcessEnv :=
  { findProcess := .ok (some c3Process)
    findAttempt := .ok (some c3Attempt)
    findTask := .ok (some c3Task) }

/-- A running process the supervisor can stop. -/
def c4Proc1 : ExecutionProcess := { c2Process with id := ⟨10⟩, status := .running }

/-- A process that is no longer running. -/
def c4Proc2 : ExecutionProcess := { c2Process with id := ⟨11⟩, status := .completed }

/-- Environment where exactly the first process is live and all writes
succeed. -/
def c4Env : StopAllEnv :=
  { exists_for_task := .ok true
    findProcesses := .ok [c4Proc1, c4Proc2]
    stopResult := fun id => .ok (decide (id = c4Proc1.id))
    updateResult := fun _ => .ok () }

/-- A running dev-server row. -/
def c5Server : ExecutionProcess :=
  { c2Process with id := ⟨20⟩, process_type := .devServer, status := .running }

/-- Environment where stopping the previous dev server fails but the new
launch succeeds. -/
def c5Env : DevServerEnv :=
  { exists_for_task := .ok true
    findRunningDevServers := .ok [c5Server]
    stopResult := fun _ => .error "supervisor unreachable"
    updateResult := fun _ => .ok ()
    startResult := .ok () }

/-- Environment where the preemption fully succeeds. -/
def c5wEnv : DevServerEnv := { c5Env with stopResult := fun _ => .ok true }

/-- The plan text of the approval scenario. -/
def planText : String := "step 1, step 2"

/-- A normalized conversation holding one plan presentation. -/
def c6Entries : List NormalizedEntry :=
  [⟨some timeT, .toolUse (.planPresentation planText), "plan", none⟩]

/-- A claude-plan process with persisted stdout. -/
def c6Proc : ExecutionProcess :=
  { c2Process with
    id := ⟨30⟩
    executor_type := some "claude-plan"
    stdout := some "plan-json"
    stderr := none }

/-- The original task of the approval scenario. -/
def c6Task : Task := ⟨⟨5⟩, ⟨7⟩, "Ship feature", .inProgress⟩

/-- The task row returned by `Task::create`. -/
def c6NewTask : Task := ⟨⟨9⟩, ⟨7⟩, "Execute Plan: Ship feature", .todo⟩

/-- Environment in which plan approval fully succeeds. -/
def c6Env : ApprovePlanEnv :=
  { exists_for_task := .ok true
    findTask := .ok (some c6Task)
    findProcesses := .ok [c6Proc]
    plan := { canonicalize := fun _ => none
              normalizeClaudePlan := fun _ _ => some c6Entries }
    newTaskId := ⟨9⟩
    createTask := .ok c6NewTask
    updateStatus := .ok () }

/-- A claude-plan process whose normalized entries hold no plan. -/
def c7Proc : ExecutionProcess := { c6Proc with id := ⟨31⟩ }

/-- Environment where the only claude-plan process yields no plan entry. -/
def c7Env : ApprovePlanEnv :=
  { c6Env with
    findProcesses := .ok [c7Proc]
    plan := { canonicalize := fun _ => none
              normalizeClaudePlan := fun _ _ =>
                some [⟨some timeT, .assistantMessage, "thinking", none⟩] } }

/-- Follow-up environment whose worktree is irrecoverable. -/
def c8EnvNew : FollowUpEnv :=
  { exists_for_task := .ok true
    startFollowup := .ok (start_followup_execution_spec true ⟨1⟩ ⟨2⟩) }

/-- Follow-up environment whose worktree is usable. -/
def c8EnvSame : FollowUpEnv :=
  { exists_for_task := .ok true
    startFollowup := .ok (start_followup_execution_spec false ⟨1⟩ ⟨2⟩) }

/-- Merge environment where everything succeeds. -/
def c9Env : MergeEnv :=
  { exists_for_task := .ok true, mergeChanges := .ok (), updateStatus := .ok () }

/-- Merge environment where the status update fails. -/
def c9EnvFail : MergeEnv := { c9Env with updateStatus := .error "db locked" }

/-- Rebase environment hitting a conflict. -/
def c10RebaseEnv : RebaseEnv :=
  { exists_for_task := .ok true
    rebaseAttempt := .error "Merge conflict during rebase" }

/-- Merge environment hitting a conflict. -/
def c10MergeEnv : MergeEnv :=
  { exists_for_task := .ok true
    mergeChanges := .error "merge conflict"
    updateStatus := .ok () }

/-! ### Order facts about the sort comparator -/

theorem charCmp_eq_iff (a b : Char) : charCmp a b = Ordering.eq ↔ a.toNat = b.toNat := by
  unfold charCmp
  split_ifs with h1 h2 <;> simp_all
  all_goals omega

theorem charCmp_lt_iff (a b : Char) : charCmp a b = Ordering.lt ↔ a.toNat < b.toNat := by
  unfold charCmp
  split_ifs with h1 h2 <;> simp_all

theorem charCmp_gt_iff (a b : Char) : charCmp a b = Ordering.gt ↔ b.toNat < a.toNat := by
  unfold charCmp
  split_ifs with h1 h2 <;> simp_all
  all_goals omega

theorem strCmpChars_gt_iff_lt :
    ∀ (as bs : List Char), strCmpChars as bs = Ordering.gt ↔ strCmpChars bs as = Ordering.lt
  | [], [] => by simp [strCmpChars]
  | [], _ :: _ => by simp [strCmpChars]
  | _ :: _, [] => by simp [strCmpChars]
  | a :: as, b :: bs => by
    unfold strCmpChars
    rcases h : charCmp a b with _ | _ | _
    · have hba : charCmp b a = Ordering.gt := by
        rw [charCmp_gt_iff]
        exact (charCmp_lt_iff a b).mp h
      rw [hba]
      simp
    · have hba : charCmp b a = Ordering.eq := by
        rw [charCmp_eq_iff]
        exact ((charCmp_eq_iff a b).mp h).symm
      rw [hba]
      exact strCmpChars_gt_iff_lt as bs
    · have hba : charCmp b a = Ordering.lt := by
        rw [charCmp_lt_iff]
        exact (charCmp_gt_iff a b).mp h
      rw [hba]
      simp

theorem strCmpChars_le_trans :
    ∀ (as bs cs : List Char), strCmpChars as bs ≠ Ordering.gt →
      strCmpChars bs cs ≠ Ordering.gt → strCmpChars as cs ≠ Ordering.gt
  | [], _, cs, _, _ => by
    cases cs <;> simp [strCmpChars]
  | _ :: _, [], _, h1, _ => absurd rfl h1
  | _ :: _, _ :: _, [], _, h2 => absurd rfl h2
  | a :: as, b :: bs, c :: cs, h1, h2 => by
    unfold strCmpChars at h1 h2 ⊢
    rcases hab : charCmp a b with _ | _ | _ <;> rw [hab] at h1 <;>
      rcases hbc : charCmp b c with _ | _ | _ <;> rw [hbc] at h2
    · have : charCmp a c = Ordering.lt := by
        rw [charCmp_lt_iff]
        exact lt_trans ((charCmp_lt_iff a b).mp hab) ((charCmp_lt_iff b c).mp hbc)
      rw [this]; simp
    · have : charCmp a c = Ordering.lt := by
        rw [charCmp_lt_iff]
        have hh1 := (charCmp_lt_iff a b).mp hab
        have hh2 := (charCmp_eq_iff b c).mp hbc
        omega
      rw [this]; simp
    · exact absurd rfl h2
    · have : charCmp a c = Ordering.lt := by
        rw [charCmp_lt_iff]
        have hh1 := (charCmp_eq_iff a b).mp hab
        have hh2 := (charCmp_lt_iff b c).mp hbc
        omega
      rw [this]; simp
    · have : charCmp a c = Ordering.eq := by
        rw [charCmp_eq_iff]
        rw [(charCmp_eq_iff a b).mp hab]
        exact (charCmp_eq_iff b c).mp hbc
      rw [this]
      exact strCmpChars_le_trans as bs cs h1 h2
    · exact absurd rfl h2
    · exact absurd rfl h1
    · exact absurd rfl h1
    · exact absurd rfl h1

theorem entryLe_eq_true_iff (a b : NormalizedEntry) :
    entryLe a b = true ↔ entryCmp a b ≠ Ordering.gt := by
  unfold entryLe
  rcases entryCmp a b with _ | _ | _ <;> simp

theorem entryLe_trans (a b c : NormalizedEntry) (hab : entryLe a b) (hbc : entryLe b c) :
    entryLe a c := by
  rw [entryLe_eq_true_iff] at *
  unfold entryCmp strCmp at *
  obtain ⟨ta, _, _, _⟩ := a
  obtain ⟨tb, _, _, _⟩ := b
  obtain ⟨tc, _, _, _⟩ := c
  dsimp only at *
  rcases ta with _ | x <;> rcases tb with _ | y <;> rcases tc with _ | z <;> simp_all
  exact strCmpChars_le_trans _ _ _ hab hbc

theorem entryLe_total (a b : NormalizedEntry) : entryLe a b || entryLe b a := by
  rw [Bool.or_eq_true, entryLe_eq_true_iff, entryLe_eq_true_iff]
  unfold entryCmp strCmp
  obtain ⟨ta, _, _, _⟩ := a
  obtain ⟨tb, _, _, _⟩ := b
  dsimp only
  rcases ta with _ | x <;> rcases tb with _ | y <;> simp_all
  by_cases h : strCmpChars x.data y.data = Ordering.gt
  · refine Or.inr ?_
    rw [strCmpChars_gt_iff_lt] at h
    rw [h]
    intro hc
    cases hc
  · exact Or.inl h

/-- Semantic reading of the order the code produces: once a `None`-timestamped
entry appears only `None`-timestamped entries follow, and `Some` timestamps
ascend in the lexicographic string order. -/
def sortedRel (a b : NormalizedEntry) : Prop :=
  (a.timestamp = none → b.timestamp = none) ∧
  ∀ x y, a.timestamp = some x → b.timestamp = some y → strLe x y

theorem sortedRel_of_entryLe {a b : NormalizedEntry} (h : entryLe a b) : sortedRel a b := by
  rw [entryLe_eq_true_iff] at h
  unfold entryCmp at h
  constructor
  · intro han
    rw [han] at h
    cases hbs : b.timestamp with
    | none => rfl
    | some y =>
      rw [hbs] at h
      exact absurd rfl h
  · intro x y hax hby
    rw [hax, hby] at h
    exact h

theorem mergeSort_entryLe_pairwise (l : List NormalizedEntry) :
    (l.mergeSort entryLe).Pairwise sortedRel :=
  (List.sorted_mergeSort entryLe_trans entryLe_total l).imp sortedRel_of_entryLe

theorem configResultOf_error_entries (env : NormEnv) (p : ExecutionProcess)
    (conv : NormalizedConversation) (h : configResultOf env p = .error conv) :
    conv.entries = [] := by
  unfold configResultOf at h
  split at h
  · cases h
  · split at h
    · cases h
    · injection h with h'
      subst h'
      rfl

theorem stdoutEntriesStep_error_entries (env : NormEnv) (p : ExecutionProcess)
    (conv : NormalizedConversation) (h : stdoutEntriesStep env p = .error conv) :
    conv.entries = [] := by
  unfold stdoutEntriesStep at h
  split at h
  · cases h
  · split at h
    · cases h
    · split at h
      · injection h with h'
        subst h'
        exact configResultOf_error_entries env p _ (by assumption)
      · dsimp only at h
        split at h <;> cases h

theorem mergeSort_pair (a b : NormalizedEntry) :
    [a, b].mergeSort entryLe = if entryLe a b then [a, b] else [b, a] := by
  simp [List.mergeSort, List.splitInTwo, List.splitAt, List.splitAt.go, List.merge]

theorem mergeSort_single (a : NormalizedEntry) : [a].mergeSort entryLe = [a] := by
  simp [List.mergeSort]

theorem c1_entries_eval :
    (normalize_process_logs c1Env c1Process).entries =
      [⟨some timeT, .errorMessage, "oops", none⟩,
       ⟨none, .assistantMessage, "hello", none⟩] := by
  have h : (normalize_process_logs c1Env c1Process).entries =
      [⟨none, .assistantMessage, "hello", none⟩,
       ⟨some timeT, .errorMessage, "oops", none⟩].mergeSort entryLe := rfl
  rw [h, mergeSort_pair]
  rfl

/-- C1 counterexample: the claimed rule that entries with `None` timestamps
precede all `Some`-timestamped entries fails on a concrete process: the
stderr-derived entry (with a `Some` timestamp) is sorted before the
stdout-derived entry (with a `None` timestamp). -/
theorem c1_none_first_counterexample :
    ¬ ((normalize_process_logs c1Env c1Process).entries.Pairwise
        fun a b => a.timestamp = none ∨ b.timestamp ≠ none) := by
  rw [c1_entries_eval]
  intro hp
  rcases List.pairwise_cons.mp hp with ⟨hfst, _⟩
  rcases hfst _ (List.mem_singleton.mpr rfl) with h | h
  · cases h
  · exact h rfl

/-- C1 (amended): the merged entry list produced by log normalization is
sorted so that every entry with a `Some` timestamp precedes every entry with
a `None` timestamp, entries with `Some` timestamps are in ascending timestamp
order, and the stable sort keeps insertion order for entries whose comparator
result is `eq`. -/
theorem c1_entries_sorted_amended :
    (∀ (env : NormEnv) (p : ExecutionProcess),
        (normalize_process_logs env p).entries.Pairwise sortedRel) ∧
    (∀ (l : List NormalizedEntry) (a b : NormalizedEntry),
        List.Sublist [a, b] l → entryCmp a b = Ordering.eq →
        List.Sublist [a, b] (l.mergeSort entryLe)) := by
  constructor
  · intro env p
    unfold normalize_process_logs
    dsimp only
    rcases hstep : stdoutEntriesStep env p with conv | es <;> split
    · exact List.Pairwise.nil
    · rw [stdoutEntriesStep_error_entries env p conv hstep]
      exact List.Pairwise.nil
    · exact List.Pairwise.nil
    · exact mergeSort_entryLe_pairwise _
  · intro l a b hsub heq
    refine List.sublist_mergeSort entryLe_trans entryLe_total ?_ hsub
    refine List.pairwise_cons.mpr ⟨?_, List.pairwise_singleton _ _⟩
    intro y hy
    rw [List.mem_singleton] at hy
    subst hy
    rw [entryLe_eq_true_iff, heq]
    intro hc
    cases hc

/-- C1 witness: the amended theorem applied to the concrete process of the
counterexample and to a concrete equal-timestamp pair. -/
theorem c1_entries_sorted_amended_witness :
    (normalize_process_logs c1Env c1Process).entries.Pairwise sortedRel ∧
    (List.Sublist [wEntryA, wEntryB] [wEntryA, wEntryB] ∧
      entryCmp wEntryA wEntryB = Ordering.eq) ∧
    List.Sublist [wEntryA, wEntryB] ([wEntryA, wEntryB].mergeSort entryLe) :=
  ⟨c1_entries_sorted_amended.1 c1Env c1Process,
   ⟨List.Sublist.refl _, by decide⟩,
   c1_entries_sorted_amended.2 _ _ _ (List.Sublist.refl _) (by decide)⟩

theorem stderrEntries_of_trivial (now : String) (s : Option String)
    (h : stderrTrivial s = true) : stderrEntries now s = [] := by
  cases s with
  | none => rfl
  | some stderr =>
    unfold stderrTrivial at h
    unfold stderrEntries
    dsimp only at h ⊢
    cases he : (rustTrim stderr).data.isEmpty with
    | true => simp [he]
    | false =>
      rw [he] at h
      simp only [Bool.false_or, List.all_eq_true] at h
      rw [if_neg (by simp)]
      rw [List.filterMap_eq_nil_iff]
      intro chunk hc
      have hchunk := h chunk hc
      cases h1 : (rustTrim chunk).data.isEmpty with
      | true => simp [h1]
      | false =>
        rw [h1] at hchunk
        simp only [Bool.false_or] at hchunk
        simp [h1, hchunk]

theorem stdoutEntriesStep_now_irrel (s : Option ExecutorSession)
    (pc : String → Option ExecutorConfig) (c : String → Option String)
    (n : ExecutorConfig → String → String → Option (List NormalizedEntry))
    (t₁ t₂ : String) (p : ExecutionProcess) :
    stdoutEntriesStep ⟨s, pc, c, n, t₁⟩ p = stdoutEntriesStep ⟨s, pc, c, n, t₂⟩ p := rfl

/-- C2 (amended): log normalization is a pure function of the persisted
stdout/stderr, the canonical working directory, the session row, the adapter
behaviour, and the wall-clock instant observed during normalization; whenever
the stderr column contributes no entries the result is independent of that
clock instant, so re-running normalization on the same persisted input yields
the same conversation. -/
theorem c2_normalization_deterministic (e₁ e₂ : NormEnv) (p : ExecutionProcess)
    (hses : e₁.session = e₂.session) (hpar : e₁.parseConfig = e₂.parseConfig)
    (hcan : e₁.canonicalize = e₂.canonicalize) (hnor : e₁.normalizeLogs = e₂.normalizeLogs)
    (htriv : stderrTrivial p.stderr = true) :
    normalize_process_logs e₁ p = normalize_process_logs e₂ p := by
  obtain ⟨s₁, pc₁, c₁, n₁, t₁⟩ := e₁
  obtain ⟨s₂, pc₂, c₂, n₂, t₂⟩ := e₂
  simp only at hses hpar hcan hnor
  subst hses
  subst hpar
  subst hcan
  subst hnor
  unfold normalize_process_logs
  dsimp only
  rw [stdoutEntriesStep_now_irrel s₁ pc₁ c₁ n₁ t₁ t₂ p]
  rw [stderrEntries_of_trivial t₁ p.stderr htriv, stderrEntries_of_trivial t₂ p.stderr htriv]

theorem c2_eval_now (now : String) :
    normalize_process_logs ⟨none, fun _ => none, fun _ => none, fun _ _ _ => none, now⟩
        c2Process =
      ⟨[⟨some now, .errorMessage, "boom", none⟩], none, "unknown", none, none⟩ := by
  have h : normalize_process_logs ⟨none, fun _ => none, fun _ => none, fun _ _ _ => none, now⟩
      c2Process =
      ⟨[⟨some now, .errorMessage, "boom", none⟩].mergeSort entryLe, none, "unknown",
        none, none⟩ := rfl
  rw [h, mergeSort_single]

/-- C2 counterexample: two normalization runs over the same persisted
stdout/stderr and the same canonical working directory, differing only in the
observed wall-clock value, produce different conversations, because stderr
entries are timestamped at the moment of normalization. -/
theorem c2_same_input_counterexample :
    c2EnvB = { c2EnvA with now := c2EnvB.now } ∧
    normalize_process_logs c2EnvA c2Process ≠ normalize_process_logs c2EnvB c2Process := by
  refine ⟨rfl, ?_⟩
  have ha : c2EnvA =
      ⟨none, fun _ => none, fun _ => none, fun _ _ _ => none, "2025-01-01T00:00:00Z"⟩ := rfl
  have hb : c2EnvB =
      ⟨none, fun _ => none, fun _ => none, fun _ _ _ => none, "2025-01-01T00:00:01Z"⟩ := rfl
  rw [ha, hb, c2_eval_now, c2_eval_now]
  decide

/-- C2 witness: the amended determinism theorem applied to two environments
that differ only in the clock, over a process whose stderr is absent. -/
theorem c2_normalization_deterministic_witness :
    (c2EnvA.session = c2EnvB.session ∧ c2EnvA.parseConfig = c2EnvB.parseConfig ∧
      c2EnvA.canonicalize = c2EnvB.canonicalize ∧
      c2EnvA.normalizeLogs = c2EnvB.normalizeLogs ∧
      stderrTrivial c2wProcess.stderr = true) ∧
    normalize_process_logs c2EnvA c2wProcess = normalize_process_logs c2EnvB c2wProcess :=
  ⟨⟨rfl, rfl, rfl, rfl, rfl⟩,
   c2_normalization_deterministic c2EnvA c2EnvB c2wProcess rfl rfl rfl rfl rfl⟩

/-- C3 counterexample: `get_task_attempt_details` performs no
(project, task, attempt) validation — on a snapshot whose only attempt points
at a task id with no task row (an inconsistent triple), it still answers with
a success envelope instead of NotFound. -/
theorem c3_details_no_validation_counterexample :
    dbFindTask c3Db c3Attempt.task_id = none ∧
    get_task_attempt_details_db c3Db ⟨1⟩ = .ok ⟨true, some c3Attempt, none⟩ := by
  constructor <;> rfl

/-- C3 (amended): handlers that receive the full (project, task, attempt)
path do validate the triple — in particular `get_execution_process` answers
NotFound whenever the process's task belongs to a different project — but
`get_task_attempt_details` receives only an attempt id and checks nothing
beyond the attempt row's existence: it answers NotFound exactly when the row
is missing and otherwise returns the row without any ownership validation. -/
theorem c3_triple_validation :
    (∀ (env : GetExecutionProcessEnv) (project_id : Uuid)
        (process : ExecutionProcess) (attempt : TaskAttempt) (task : Task),
        env.findProcess = .ok (some process) →
        env.findAttempt = .ok (some attempt) →
        env.findTask = .ok (some task) →
        task.project_id ≠ project_id →
        get_execution_process env project_id = .error .notFound) ∧
    (∀ (db : Db) (attempt_id : Uuid),
        (get_task_attempt_details_db db attempt_id = .error .notFound ↔
          dbFindAttempt db attempt_id = none) ∧
        (∀ a, dbFindAttempt db attempt_id = some a →
          get_task_attempt_details_db db attempt_id = .ok ⟨true, some a, none⟩)) := by
  constructor
  · intro env project_id process attempt task hp ha ht hne
    unfold get_execution_process
    rw [hp, ha, ht]
    simp [hne]
  · intro db attempt_id
    constructor
    · unfold get_task_attempt_details_db get_task_attempt_details
      cases h : dbFindAttempt db attempt_id <;> simp [h]
    · intro a ha
      unfold get_task_attempt_details_db get_task_attempt_details
      rw [ha]

/-- C3 witness: the ownership check of `get_execution_process` rejecting a
foreign project, and `get_task_attempt_details` returning the dangling
attempt of the counterexample snapshot. -/
theorem c3_triple_validation_witness :
    (c3Task.project_id ≠ (⟨8⟩ : Uuid) ∧
      get_execution_process c3Env ⟨8⟩ = .error .notFound) ∧
    get_task_attempt_details_db c3Db ⟨1⟩ = .ok ⟨true, some c3Attempt, none⟩ := by
  refine ⟨⟨by decide, ?_⟩, ?_⟩
  · exact c3_triple_validation.1 c3Env ⟨8⟩ c3Process c3Attempt c3Task rfl rfl rfl (by decide)
  · exact (c3_triple_validation.2 c3Db ⟨1⟩).2 c3Attempt rfl

/-- Evaluation of the success path of `create_followup_attempt`. -/
theorem create_followup_eval (env : FollowUpEnv) (attempt_id actual : Uuid)
    (hex : env.exists_for_task = .ok true) (hst : env.startFollowup = .ok actual) :
    create_followup_attempt env attempt_id =
      .ok ⟨true,
        some ⟨followupMessage actual attempt_id, actual, decide (actual ≠ attempt_id)⟩,
        some (followupMessage actual attempt_id)⟩ := by
  unfold create_followup_attempt
  rw [hex, hst]

/-- C8: a successful follow-up response sets `created_new_attempt` exactly
when the returned attempt id differs from the requested one; with the
spec-modelled `start_followup_execution`, an irrecoverable worktree yields a
fresh id with `created_new_attempt = true`, and otherwise the original id
with `created_new_attempt = false`. -/
theorem c8_followup_response :
    (∀ (env : FollowUpEnv) (attempt_id : Uuid) (r : ApiResponse FollowUpResponse),
        create_followup_attempt env attempt_id = .ok r →
        ∃ d, r.data = some d ∧
          (d.created_new_attempt = true ↔ d.actual_attempt_id ≠ attempt_id)) ∧
    (∀ (env : FollowUpEnv) (attempt_id freshId : Uuid) (irrecoverable : Bool),
        env.exists_for_task = .ok true →
        env.startFollowup =
          .ok (start_followup_execution_spec irrecoverable attempt_id freshId) →
        freshId ≠ attempt_id →
        ∃ d, create_followup_attempt env attempt_id = .ok ⟨true, some d, some d.message⟩ ∧
          (irrecoverable = true →
            d.actual_attempt_id = freshId ∧ d.created_new_attempt = true) ∧
          (irrecoverable = false →
            d.actual_attempt_id = attempt_id ∧ d.created_new_attempt = false)) := by
  constructor
  · intro env attempt_id r h
    unfold create_followup_attempt at h
    rcases hex : env.exists_for_task with e | b
    · rw [hex] at h; cases h
    · rcases b with _ | _
      · rw [hex] at h; cases h
      · rw [hex] at h
        rcases hst : env.startFollowup with e | actual
        · rw [hst] at h; cases h
        · rw [hst] at h
          injection h with h'
          subst h'
          refine ⟨_, rfl, ?_⟩
          simp

  · intro env attempt_id freshId irrecoverable hex hst hne
    cases irrecoverable with
    | true =>
      have hs : start_followup_execution_spec true attempt_id freshId = freshId := rfl
      rw [hs] at hst
      have hd : decide (freshId ≠ attempt_id) = true := decide_eq_true hne
      refine ⟨⟨followupMessage freshId attempt_id, freshId, true⟩, ?_, ?_, ?_⟩
      · rw [create_followup_eval env attempt_id freshId hex hst, hd]
      · intro _
        exact ⟨rfl, rfl⟩
      · intro hcon
        cases hcon
    | false =>
      have hs : start_followup_execution_spec false attempt_id freshId = attempt_id := rfl
      rw [hs] at hst
      have hd : decide (attempt_id ≠ attempt_id) = false := by simp
      refine ⟨⟨followupMessage attempt_id attempt_id, attempt_id, false⟩, ?_, ?_, ?_⟩
      · rw [create_followup_eval env attempt_id attempt_id hex hst, hd]
      · intro hcon
        cases hcon
      · intro _
        exact ⟨rfl, rfl⟩

/-- C8 witness: the response law applied to a concrete successful call, and
the spec-modelled halves at a concrete irrecoverable and a concrete healthy
worktree. -/
theorem c8_followup_response_witness :
    (∃ r, create_followup_attempt c8EnvNew ⟨1⟩ = .ok r ∧
      ∃ d, r.data = some d ∧
        (d.created_new_attempt = true ↔ d.actual_attempt_id ≠ (⟨1⟩ : Uuid))) ∧
    (∃ d, create_followup_attempt c8EnvNew ⟨1⟩ = .ok ⟨true, some d, some d.message⟩ ∧
      d.actual_attempt_id = (⟨2⟩ : Uuid) ∧ d.created_new_attempt = true) ∧
    (∃ d, create_followup_attempt c8EnvSame ⟨1⟩ = .ok ⟨true, some d, some d.message⟩ ∧
      d.actual_attempt_id = (⟨1⟩ : Uuid) ∧ d.created_new_attempt = false) := by
  refine ⟨⟨_, rfl, c8_followup_response.1 c8EnvNew ⟨1⟩ _ rfl⟩, ?_, ?_⟩
  · obtain ⟨d, hres, hirr, _⟩ :=
      c8_followup_response.2 c8EnvNew ⟨1⟩ ⟨2⟩ true rfl rfl (by decide)
    obtain ⟨h1, h2⟩ := hirr rfl
    exact ⟨d, hres, h1, h2⟩
  · obtain ⟨d, hres, _, hrec⟩ :=
      c8_followup_response.2 c8EnvSame ⟨1⟩ ⟨2⟩ false rfl rfl (by decide)
    obtain ⟨h1, h2⟩ := hrec rfl
    exact ⟨d, hres, h1, h2⟩

/-- C9: when the merge succeeds the handler writes the task's status to Done
and only then returns the success envelope; when the status update fails it
returns an internal-server-error status instead of success. -/
theorem c9_merge_sets_done (env : MergeEnv) (task_id project_id : Uuid)
    (hex : env.exists_for_task = .ok true)
    (hmerge : env.mergeChanges = .ok ()) :
    (env.updateStatus = .ok () →
      merge_task_attempt env task_id project_id =
        (.ok ⟨true, none, some "Changes merged successfully"⟩,
         [Effect.updateTaskStatus task_id project_id .done])) ∧
    (∀ e, env.updateStatus = .error e →
      merge_task_attempt env task_id project_id = (.error .internalServerError, [])) := by
  constructor
  · intro hupd
    unfold merge_task_attempt
    rw [hex, hmerge, hupd]
  · intro e hupd
    unfold merge_task_attempt
    rw [hex, hmerge, hupd]

/-- C9 witness: the merge law at a concrete succeeding and a concrete failing
status update. -/
theorem c9_merge_sets_done_witness :
    merge_task_attempt c9Env ⟨5⟩ ⟨7⟩ =
      (.ok ⟨true, none, some "Changes merged successfully"⟩,
       [Effect.updateTaskStatus ⟨5⟩ ⟨7⟩ .done]) ∧
    merge_task_attempt c9EnvFail ⟨5⟩ ⟨7⟩ = (.error .internalServerError, []) :=
  ⟨(c9_merge_sets_done c9Env ⟨5⟩ ⟨7⟩ rfl rfl).1 rfl,
   (c9_merge_sets_done c9EnvFail ⟨5⟩ ⟨7⟩ rfl rfl).2 "db locked" rfl⟩

/-- C10: a failed rebase or merge is reported as an HTTP-success response
whose envelope carries `success = false` and the error's display string as
the message, never as an HTTP error status. -/
theorem c10_conflict_envelope :
    (∀ (env : RebaseEnv) (e : String),
        env.exists_for_task = .ok true →
        env.rebaseAttempt = .error e →
        rebase_task_attempt env = .ok ⟨false, none, some e⟩) ∧
    (∀ (env : MergeEnv) (task_id project_id : Uuid) (e : String),
        env.exists_for_task = .ok true →
        env.mergeChanges = .error e →
        merge_task_attempt env task_id project_id =
          (.ok ⟨false, none, some ("Failed to merge: " ++ e)⟩, [])) := by
  constructor
  · intro env e hex hreb
    unfold rebase_task_attempt
    rw [hex, hreb]
  · intro env task_id project_id e hex hmerge
    unfold merge_task_attempt
    rw [hex, hmerge]

/-- C10 witness: the envelope law at a concrete rebase conflict and a
concrete merge conflict. -/
theorem c10_conflict_envelope_witness :
    rebase_task_attempt c10RebaseEnv =
      .ok ⟨false, none, some "Merge conflict during rebase"⟩ ∧
    merge_task_attempt c10MergeEnv ⟨5⟩ ⟨7⟩ =
      (.ok ⟨false, none, some "Failed to merge: merge conflict"⟩, []) :=
  ⟨c10_conflict_envelope.1 c10RebaseEnv "Merge conflict during rebase" rfl rfl,
   c10_conflict_envelope.2 c10MergeEnv ⟨5⟩ ⟨7⟩ "merge conflict" rfl rfl⟩

/-- A process whose entry list (after the claude-plan filter and normalization)
holds no `PlanPresentation` yields no plan. -/
theorem planFromProcess_eq_none (env : PlanEnv) (p : ExecutionProcess)
    (h : ∀ s, p.stdout = some s → trimIsEmpty s = false →
      ∀ es, env.normalizeClaudePlan s
          ((env.canonicalize p.working_directory).getD p.working_directory) = some es →
        ∀ e ∈ es, planOfEntry e = none) :
    planFromProcess env p = none := by
  unfold planFromProcess
  cases hs : p.stdout with
  | none => rfl
  | some s =>
    dsimp only
    cases ht : trimIsEmpty s with
    | true => simp [ht]
    | false =>
      simp only [ht, Bool.false_eq_true, if_false]
      cases hn : env.normalizeClaudePlan s
          ((env.canonicalize p.working_directory).getD p.working_directory) with
      | none => rfl
      | some es =>
        rw [List.findSome?_eq_none_iff]
        intro e he
        exact h s hs ht es hn e (List.mem_reverse.mp he)

/-- If no claude-plan process of the list yields a plan, the scan fails with
NotFound. -/
theorem find_plan_none (env : PlanEnv) (procs : List ExecutionProcess)
    (h : ∀ p ∈ procs, p.executor_type = some "claude-plan" →
      planFromProcess env p = none) :
    find_plan_content_with_context env (.ok procs) = .error .notFound := by
  unfold find_plan_content_with_context
  have hnone : ((procs.reverse.filter
      fun p => decide (p.executor_type = some "claude-plan")).findSome?
        (planFromProcess env)) = none := by
    rw [List.findSome?_eq_none_iff]
    intro p hp
    rw [List.mem_filter] at hp
    obtain ⟨hpmem, hpdec⟩ := hp
    exact h p (List.mem_reverse.mp hpmem) (of_decide_eq_true hpdec)
  dsimp only
  rw [hnone]

/-- C6: when a plan is found, `approve_plan` creates a task in the same
project whose `parent_task_attempt` is the attempt id, whose title prefixes
the original title with "Execute Plan: ", and whose description is the plan
text, and afterwards sets the original task's status to Done before returning
its success envelope. -/
theorem c6_approve_plan_creates_child (env : ApprovePlanEnv)
    (project_id task_id attempt_id : Uuid) (currentTask newTask : Task) (plan : String)
    (hex : env.exists_for_task = .ok true)
    (htask : env.findTask = .ok (some currentTask))
    (hplan : find_plan_content_with_context env.plan env.findProcesses = .ok plan)
    (hcreate : env.createTask = .ok newTask)
    (hupd : env.updateStatus = .ok ()) :
    approve_plan env project_id task_id attempt_id =
      (.ok ⟨true,
        some ⟨"Plan approved and new task created: " ++ newTask.title,
          env.newTaskId, true⟩,
        some "Plan approved and new task created"⟩,
       [Effect.createTask
          ⟨project_id, "Execute Plan: " ++ currentTask.title, some plan, some attempt_id⟩,
        Effect.updateTaskStatus task_id project_id .done]) := by
  unfold approve_plan
  rw [hex, htask, hplan, hcreate, hupd]

/-- C6 witness: the approval law at a concrete environment whose claude-plan
process presents the plan. -/
theorem c6_approve_plan_creates_child_witness :
    approve_plan c6Env ⟨7⟩ ⟨5⟩ ⟨1⟩ =
      (.ok ⟨true,
        some ⟨"Plan approved and new task created: Execute Plan: Ship feature",
          ⟨9⟩, true⟩,
        some "Plan approved and new task created"⟩,
       [Effect.createTask ⟨⟨7⟩, "Execute Plan: Ship feature", some planText, some ⟨1⟩⟩,
        Effect.updateTaskStatus ⟨5⟩ ⟨7⟩ .done]) := by
  have h := c6_approve_plan_creates_child c6Env ⟨7⟩ ⟨5⟩ ⟨1⟩ c6Task c6NewTask planText
    rfl rfl (by rfl) rfl rfl
  rw [h]
  rfl

/-- C7: when no claude-plan process of the attempt yields a
`PlanPresentation` entry after normalization (processes scanned most recent
first, entries most recent first), `approve_plan` fails with the NotFound
status, creates no task, and performs no status update. -/
theorem c7_plan_not_found (env : ApprovePlanEnv)
    (project_id task_id attempt_id : Uuid) (currentTask : Task)
    (procs : List ExecutionProcess)
    (hex : env.exists_for_task = .ok true)
    (htask : env.findTask = .ok (some currentTask))
    (hprocs : env.findProcesses = .ok procs)
    (hnone : ∀ p ∈ procs, p.executor_type = some "claude-plan" →
      ∀ s, p.stdout = some s → trimIsEmpty s = false →
        ∀ es, env.plan.normalizeClaudePlan s
            ((env.plan.canonicalize p.working_directory).getD p.working_directory) =
              some es →
          ∀ e ∈ es, planOfEntry e = none) :
    approve_plan env project_id task_id attempt_id = (.error .notFound, []) := by
  unfold approve_plan
  rw [hex, htask, hprocs]
  rw [find_plan_none env.plan procs
    (fun p hp _ => planFromProcess_eq_none env.plan p (hnone p hp (by assumption)))]

/-- C7 witness: the NotFound law at a concrete environment whose only
claude-plan process normalizes to an assistant message. -/
theorem c7_plan_not_found_witness :
    approve_plan c7Env ⟨7⟩ ⟨5⟩ ⟨1⟩ = (.error .notFound, []) := by
  refine c7_plan_not_found c7Env ⟨7⟩ ⟨5⟩ ⟨1⟩ c6Task [c7Proc] rfl rfl rfl ?_
  intro p hp _ s hs _ es hes e he
  rw [List.mem_singleton] at hp
  subst hp
  injection hs with hs'
  subst hs'
  injection hes with hes'
  subst hes'
  rw [List.mem_singleton] at he
  subst he
  rfl

/-- One stop-loop step only ever appends to the recorded effects. -/
theorem stopStep_effects_append (env : StopAllEnv) (acc : StopOutcome)
    (p : ExecutionProcess) :
    ∃ extra, (stopStep env acc p).effects = acc.effects ++ extra := by
  unfold stopStep
  rcases env.stopResult p.id with e | b
  · exact ⟨[], by simp⟩
  · rcases b with _ | _
    · exact ⟨[], by simp⟩
    · rcases env.updateResult p.id with e | u
      · exact ⟨[], by simp⟩
      · exact ⟨[Effect.updateCompletion p.id .killed], rfl⟩

/-- Effects already recorded survive the rest of the stop loop. -/
theorem stopFold_effects_mono (env : StopAllEnv) (procs : List ExecutionProcess)
    (acc : StopOutcome) {e : Effect} (he : e ∈ acc.effects) :
    e ∈ (procs.foldl (stopStep env) acc).effects := by
  induction procs generalizing acc with
  | nil => exact he
  | cons p ps ih =>
    apply ih
    obtain ⟨extra, hx⟩ := stopStep_effects_append env acc p
    rw [hx]
    exact List.mem_append_left _ he

/-- Every process the supervisor stops and whose status write succeeds ends
up marked `Killed` by the stop loop. -/
theorem stopFold_marks_killed (env : StopAllEnv) (procs : List ExecutionProcess)
    (acc : StopOutcome) (p : ExecutionProcess) (hp : p ∈ procs)
    (hstop : env.stopResult p.id = .ok true) (hupd : env.updateResult p.id = .ok ()) :
    Effect.updateCompletion p.id .killed ∈ (procs.foldl (stopStep env) acc).effects := by
  induction procs generalizing acc with
  | nil => cases hp
  | cons q qs ih =>
    rcases List.mem_cons.mp hp with rfl | hmem
    · rw [List.foldl_cons]
      apply stopFold_effects_mono
      unfold stopStep
      rw [hstop, hupd]
      exact List.mem_append_right _ (List.mem_singleton.mpr rfl)
    · exact ih _ hmem

/-- C4: `stop_all_execution_processes` attempts to stop every process of the
attempt; each process the supervisor stopped whose status write succeeded is
marked `Killed`; the reply is a success envelope exactly when no per-process
error was collected — including as a no-op when nothing was running — and
otherwise a failure envelope whose message lists the errors; the stopped
count is reported in the message. -/
theorem c4_stop_all (env : StopAllEnv) (procs : List ExecutionProcess)
    (hex : env.exists_for_task = .ok true)
    (hfind : env.findProcesses = .ok procs) :
    (stop_all_execution_processes env).2 = (stopLoop env procs).effects ∧
    (∀ p ∈ procs, env.stopResult p.id = .ok true → env.updateResult p.id = .ok () →
      Effect.updateCompletion p.id .killed ∈ (stop_all_execution_processes env).2) ∧
    ((stopLoop env procs).errors = [] → (stopLoop env procs).stoppedCount = 0 →
      (stop_all_execution_processes env).1 =
        .ok ⟨true, none, some "No running processes found to stop"⟩) ∧
    ((stopLoop env procs).errors = [] → (stopLoop env procs).stoppedCount ≠ 0 →
      (stop_all_execution_processes env).1 =
        .ok ⟨true, none,
          some ("Successfully stopped " ++ toString (stopLoop env procs).stoppedCount ++
            " execution processes")⟩) ∧
    ((stopLoop env procs).errors ≠ [] →
      (stop_all_execution_processes env).1 =
        .ok ⟨false, none,
          some ("Stopped " ++ toString (stopLoop env procs).stoppedCount ++
            " processes, but encountered errors: " ++
            String.intercalate ", " (stopLoop env procs).errors)⟩) ∧
    (∀ r, (stop_all_execution_processes env).1 = .ok r →
      (r.success = true ↔ (stopLoop env procs).errors = [])) := by
  have hun : stop_all_execution_processes env =
      (if (stopLoop env procs).errors.isEmpty then
        if (stopLoop env procs).stoppedCount = 0 then
          ((.ok ⟨true, none, some "No running processes found to stop"⟩ :
            Except StatusCode (ApiResponse Unit)), (stopLoop env procs).effects)
        else
          (.ok ⟨true, none,
            some ("Successfully stopped " ++ toString (stopLoop env procs).stoppedCount ++
              " execution processes")⟩, (stopLoop env procs).effects)
      else
        (.ok ⟨false, none,
          some ("Stopped " ++ toString (stopLoop env procs).stoppedCount ++
            " processes, but encountered errors: " ++
            String.intercalate ", " (stopLoop env procs).errors)⟩,
          (stopLoop env procs).effects)) := by
    unfold stop_all_execution_processes
    rw [hex, hfind]
  refine ⟨?_, ?_, ?_, ?_, ?_, ?_⟩
  · rw [hun]
    split
    · split <;> rfl
    · rfl
  · intro p hp hstop hupd
    have hm := stopFold_marks_killed env procs ⟨0, [], []⟩ p hp hstop hupd
    have h2 : (stop_all_execution_processes env).2 = (stopLoop env procs).effects := by
      rw [hun]
      split
      · split <;> rfl
      · rfl
    rw [h2]
    exact hm
  · intro herr hcount
    rw [hun]
    rw [if_pos (List.isEmpty_iff.mpr herr), if_pos hcount]
  · intro herr hcount
    rw [hun]
    rw [if_pos (List.isEmpty_iff.mpr herr), if_neg hcount]
  · intro herr
    rw [hun]
    rw [if_neg (fun hc => herr (List.isEmpty_iff.mp hc))]
  · intro r hr
    rw [hun] at hr
    by_cases herr : (stopLoop env procs).errors = []
    · rw [if_pos (List.isEmpty_iff.mpr herr)] at hr
      constructor
      · intro _
        exact herr
      · intro _
        rcases hc : (stopLoop env procs).stoppedCount with _ | n
        · rw [if_pos hc] at hr
          injection hr with hr'
          rw [← hr']
        · rw [if_neg (by rw [hc]; exact Nat.succ_ne_zero n)] at hr
          injection hr with hr'
          rw [← hr']
    · rw [if_neg (fun hc => herr (List.isEmpty_iff.mp hc))] at hr
      injection hr with hr'
      rw [← hr']
      constructor
      · intro hcon
        cases hcon
      · intro hcon
        exact absurd hcon herr

/-- C4 witness: the stop-all law at a concrete attempt with one stoppable and
one already-finished process. -/
theorem c4_stop_all_witness :
    (stop_all_execution_processes c4Env).1 =
      .ok ⟨true, none, some "Successfully stopped 1 execution processes"⟩ ∧
    Effect.updateCompletion c4Proc1.id .killed ∈ (stop_all_execution_processes c4Env).2 := by
  have h := c4_stop_all c4Env [c4Proc1, c4Proc2] rfl rfl
  constructor
  · have hmsg := h.2.2.2.1 (by rfl) (by decide)
    rw [hmsg]
    rfl
  · exact h.2.1 c4Proc1 (List.mem_cons_self _ _) (by rfl) rfl

/-- C5 counterexample: with one running dev server whose stop call fails, the
handler still launches the new server and reports success, leaving the old
row `Running` — two running dev servers for the project. -/
theorem c5_singleton_counterexample :
    c5Env.findRunningDevServers = .ok [c5Server] ∧
    c5Server.status = .running ∧
    (start_dev_server c5Env).1 =
      .ok ⟨true, none, some "Dev server started successfully"⟩ ∧
    statusAfter (start_dev_server c5Env).2 c5Server = .running := by
  refine ⟨rfl, rfl, rfl, rfl⟩

/-- A status fold over effects that only write `Killed` stays `Killed`. -/
theorem statusFold_stays_killed (p : ExecutionProcess) :
    ∀ (effects : List Effect),
      (∀ e ∈ effects, ∀ id st, e = Effect.updateCompletion id st → st = .killed) →
      effects.foldl
        (fun st e =>
          match e with
          | .updateCompletion id s => if id = p.id then s else st
          | _ => st)
        .killed = .killed
  | [], _ => rfl
  | e :: es, hall => by
    rw [List.foldl_cons]
    have htail : ∀ e ∈ es, ∀ id st, e = Effect.updateCompletion id st → st = .killed :=
      fun e he id st hst => hall e (List.mem_cons_of_mem _ he) id st hst
    rcases e with ⟨id, st⟩ | d | ⟨t, pr, st2⟩
    · have hk := hall _ (List.mem_cons_self _ _) id st rfl
      subst hk
      dsimp only
      rw [ite_self]
      exact statusFold_stays_killed p es htail
    · exact statusFold_stays_killed p es htail
    · exact statusFold_stays_killed p es htail

/-- If a `Killed` write for the process appears among effects that only write
`Killed`, the status fold ends at `Killed` from any starting status. -/
theorem statusFold_killed_of_mem (p : ExecutionProcess) :
    ∀ (effects : List Effect) (init : ExecutionProcessStatus),
      (∀ e ∈ effects, ∀ id st, e = Effect.updateCompletion id st → st = .killed) →
      Effect.updateCompletion p.id .killed ∈ effects →
      effects.foldl
        (fun st e =>
          match e with
          | .updateCompletion id s => if id = p.id then s else st
          | _ => st)
        init = .killed
  | [], _, _, hmem => absurd hmem (List.not_mem_nil _)
  | e :: es, init, hall, hmem => by
    rw [List.foldl_cons]
    have htail : ∀ e ∈ es, ∀ id st, e = Effect.updateCompletion id st → st = .killed :=
      fun e he id st hst => hall e (List.mem_cons_of_mem _ he) id st hst
    rcases List.mem_cons.mp hmem with heq | hmem'
    · rw [← heq]
      dsimp only
      rw [if_pos rfl]
      exact statusFold_stays_killed p es htail
    · exact statusFold_killed_of_mem p es _ htail hmem'

/-- If a `Killed` write for the process appears among effects that only write
`Killed`, the process's final status is `Killed`. -/
theorem statusAfter_killed (effects : List Effect) (p : ExecutionProcess)
    (hall : ∀ e ∈ effects, ∀ id st, e = Effect.updateCompletion id st → st = .killed)
    (hmem : Effect.updateCompletion p.id .killed ∈ effects) :
    statusAfter effects p = .killed :=
  statusFold_killed_of_mem p effects p.status hall hmem

/-- Every effect of the dev-server preemption loop is a `Killed` write. -/
theorem devServerFold_all_killed (env : DevServerEnv) :
    ∀ (servers : List ExecutionProcess) (acc : List Effect),
      (∀ e ∈ acc, ∀ id st, e = Effect.updateCompletion id st → st = .killed) →
      ∀ e ∈ servers.foldl
        (fun acc s =>
          match env.stopResult s.id with
          | .error _ => acc
          | .ok _ =>
            match env.updateResult s.id with
            | .error _ => acc
            | .ok _ => acc ++ [.updateCompletion s.id .killed])
        acc,
        ∀ id st, e = Effect.updateCompletion id st → st = .killed
  | [], acc, hacc => hacc
  | s :: ss, acc, hacc => by
    rw [List.foldl_cons]
    apply devServerFold_all_killed env ss
    rcases env.stopResult s.id with e | b
    · exact hacc
    · rcases env.updateResult s.id with e | u
      · exact hacc
      · intro e he id st hst
        rcases List.mem_append.mp he with h1 | h2
        · exact hacc e h1 id st hst
        · rw [List.mem_singleton] at h2
          subst h2
          injection hst with h1 h2
          rw [← h2]

/-- Effects already recorded survive the rest of the preemption loop. -/
theorem devServerFold_mono (env : DevServerEnv) :
    ∀ (servers : List ExecutionProcess) (acc : List Effect) {e : Effect},
      e ∈ acc →
      e ∈ servers.foldl
        (fun acc s =>
          match env.stopResult s.id with
          | .error _ => acc
          | .ok _ =>
            match env.updateResult s.id with
            | .error _ => acc
            | .ok _ => acc ++ [.updateCompletion s.id .killed])
        acc
  | [], _, _, he => he
  | s :: ss, acc, e, he => by
    rw [List.foldl_cons]
    apply devServerFold_mono env ss
    rcases env.stopResult s.id with er | b
    · exact he
    · rcases env.updateResult s.id with er | u
      · exact he
      · exact List.mem_append_left _ he

/-- A server whose stop call returns and whose status write succeeds gets its
`Killed` write recorded by the preemption loop. -/
theorem devServerFold_mem_killed (env : DevServerEnv) :
    ∀ (servers : List ExecutionProcess) (acc : List Effect) (s : ExecutionProcess),
      s ∈ servers → (∃ b, env.stopResult s.id = .ok b) →
      env.updateResult s.id = .ok () →
      Effect.updateCompletion s.id .killed ∈ servers.foldl
        (fun acc s =>
          match env.stopResult s.id with
          | .error _ => acc
          | .ok _ =>
            match env.updateResult s.id with
            | .error _ => acc
            | .ok _ => acc ++ [.updateCompletion s.id .killed])
        acc
  | [], _, s, hs, _, _ => absurd hs (List.not_mem_nil s)
  | q :: qs, acc, s, hs, hstop, hupd => by
    rw [List.foldl_cons]
    rcases List.mem_cons.mp hs with rfl | hmem
    · apply devServerFold_mono env qs
      obtain ⟨b, hb⟩ := hstop
      rw [hb]
      dsimp only
      rw [hupd]
      exact List.mem_append_right _ (List.mem_singleton.mpr rfl)
    · exact devServerFold_mem_killed env qs _ s hmem hstop hupd

/-- C5 (amended): when, for every previously-running dev server of the
project, the stop call returns and the `Killed` status write succeeds, and
the new launch succeeds, `start_dev_server` reports success and every
previously-running dev server ends up `Killed` — so at most the newly
launched server is Running.  (A stop or update failure is only logged: the
handler still reports success and the old server stays Running, as the
counterexample shows.) -/
theorem c5_dev_server_singleton (env : DevServerEnv) (servers : List ExecutionProcess)
    (hex : env.exists_for_task = .ok true)
    (hfind : env.findRunningDevServers = .ok servers)
    (hok : ∀ s ∈ servers,
      (∃ b, env.stopResult s.id = .ok b) ∧ env.updateResult s.id = .ok ())
    (hstart : env.startResult = .ok ()) :
    (start_dev_server env).1 =
      .ok ⟨true, none, some "Dev server started successfully"⟩ ∧
    ∀ s ∈ servers, statusAfter (start_dev_server env).2 s = .killed := by
  have heval : start_dev_server env =
      (.ok ⟨true, none, some "Dev server started successfully"⟩,
        devServerStopEffects env servers) := by
    unfold start_dev_server
    rw [hex, hfind, hstart]
  rw [heval]
  refine ⟨rfl, ?_⟩
  intro s hs
  apply statusAfter_killed
  · exact devServerFold_all_killed env servers []
      (fun e he => absurd he (List.not_mem_nil e))
  · exact devServerFold_mem_killed env servers [] s hs (hok s hs).1 (hok s hs).2

/-- C5 witness: the singleton law at a concrete project with one previously
running dev server which is stopped and marked successfully. -/
theorem c5_dev_server_singleton_witness :
    (start_dev_server c5wEnv).1 =
      .ok ⟨true, none, some "Dev server started successfully"⟩ ∧
    statusAfter (start_dev_server c5wEnv).2 c5Server = .killed := by
  have h := c5_dev_server_singleton c5wEnv [c5Server] rfl rfl
    (fun s _ => ⟨⟨true, rfl⟩, rfl⟩) rfl
  exact ⟨h.1, h.2 c5Server (List.mem_singleton.mpr rfl)⟩

end VibeKanban
